import Mathlib

/-!
Verification of the metadata-extraction and pipeline logic of
generate_readme_from_orcid.py, a script that fetches an ORCID record,
extracts bibliographic fields from heterogeneous JSON, and renders a
sorted markdown table.

The script is shallowly embedded: JSON values are an inductive type,
Python attribute errors / type errors surface as Option.none, Python
truthiness and the or-chains are modelled explicitly, and the HTTP
fetchers are oracle parameters (Option-valued: none models a raised
request exception).
-/

namespace Orcid

/-- A JSON value as produced by parsing an HTTP response body.
    Numbers are modelled as integers (the fields the script touches are
    strings or absent; no float arithmetic occurs). -/
inductive Json where
  | null
  | bool (b : Bool)
  | num (n : Int)
  | str (s : String)
  | arr (elems : List Json)
  | obj (fields : List (String × Json))

/-- Python truthiness of a JSON value (`if x:` / `x or y`). -/
def Json.truthy : Json → Bool
  | .null => false
  | .bool b => b
  | .num n => n != 0
  | .str s => !s.isEmpty
  | .arr l => !l.isEmpty
  | .obj l => !l.isEmpty

/-- Whether a value is a JSON object (a Python dict). -/
def isObjB : Json → Bool
  | .obj _ => true
  | _ => false

/-- Whether a value is a JSON string. -/
def isStrB : Json → Bool
  | .str _ => true
  | _ => false

/-- Total dictionary lookup with default: the value of `d.get(k, dflt)`
    when `d` is known to be a dict; the default on non-dicts. -/
def getD (v : Json) (k : String) (dflt : Json) : Json :=
  match v with
  | .obj kvs =>
    match kvs.lookup k with
    | some x => x
    | none => dflt
  | _ => dflt

/-- Python `v.get(k, dflt)`: raises AttributeError (modelled `none`)
    unless `v` is a dict. -/
def pyGet (v : Json) (k : String) (dflt : Json) : Option Json :=
  match v with
  | .obj _ => some (getD v k dflt)
  | _ => none

/-- Python `a or b`. -/
def pyOr (a b : Json) : Json := if a.truthy then a else b

/-- Python iteration `for x in v`: lists yield elements, strings yield
    one-character strings, dicts yield their keys; other values raise
    TypeError (modelled `none`). -/
def pyIter : Json → Option (List Json)
  | .arr xs => some xs
  | .str s => some (s.toList.map fun c => Json.str (String.mk [c]))
  | .obj kvs => some (kvs.map fun kv => Json.str kv.1)
  | _ => none

/-- Python `v[0]`: first element of a list or string; raises on empty
    lists, dicts (no key 0 — the keys here are strings), and scalars. -/
def pyIndex0 : Json → Option Json
  | .arr (x :: _) => some x
  | .str s =>
    match s.toList with
    | c :: _ => some (Json.str (String.mk [c]))
    | [] => none
  | _ => none

/-- Characters removed by Python's `str.strip()`. -/
def isPySpace (c : Char) : Bool :=
  c = ' ' || c = '\t' || c = '\n' || c = '\r' || c = '\x0b' || c = '\x0c'

/-- Python `str.strip()` on a character list. -/
def pyStripL (l : List Char) : List Char :=
  ((l.dropWhile isPySpace).reverse.dropWhile isPySpace).reverse

/-- `'\n'` replaced by a space, other characters unchanged. -/
def mapNlChar (c : Char) : Char := if c = '\n' then ' ' else c

/-- `sanitize_markdown`: non-strings coerce to the empty string; strings
    have newlines replaced by spaces, then are stripped. -/
def sanitize_markdown : Json → String
  | .str s => String.mk (pyStripL (s.toList.map mapNlChar))
  | _ => ""

/-- `sanitize_markdown` restricted to strings. -/
def sanitizeStr (s : String) : String := sanitize_markdown (Json.str s)

/-- Python substring test `pat in s` on character lists. -/
def containsSeq (s pat : List Char) : Bool :=
  match s with
  | [] => pat.isEmpty
  | c :: rest => pat.isPrefixOf (c :: rest) || containsSeq rest pat

/-- Python substring test `pat in s` on strings. -/
def strContains (s pat : String) : Bool := containsSeq s.toList pat.toList

/-- Fuel-driven core of `str.replace(pat, '')`: removes non-overlapping
    occurrences left to right. The fuel is the length of the subject, which
    suffices since every step consumes at least one character. -/
def replaceAllAux : Nat → List Char → List Char → List Char
  | _, [], _ => []
  | 0, s, _ => s
  | fuel+1, c :: rest, pat =>
    if !pat.isEmpty && pat.isPrefixOf (c :: rest) then
      replaceAllAux fuel ((c :: rest).drop pat.length) pat
    else
      c :: replaceAllAux fuel rest pat

/-- Python `s.replace(pat, '')` for a non-empty pattern. -/
def replaceAll (s pat : List Char) : List Char := replaceAllAux s.length s pat

/-- Python `s.split(':', 1)[1]`: everything after the first colon
    (only reached when a colon exists, guarded by a startswith check). -/
def afterFirstColon : List Char → List Char
  | [] => []
  | c :: rest => if c = ':' then rest else afterFirstColon rest

def doiPrefHttps : List Char := "https://doi.org/".toList

def doiPrefHttp : List Char := "http://doi.org/".toList

def doiScheme : List Char := "doi:".toList

/-- The DOI normalization applied to a matched external-id value:
    `val.strip()`, remove every occurrence of the two `doi.org` URL
    prefixes, then drop a leading `doi:` scheme (split at first colon). -/
def normalizeDoiStr (s : String) : String :=
  let d1 := pyStripL s.toList
  let d2 := replaceAll d1 doiPrefHttps
  let d3 := replaceAll d2 doiPrefHttp
  let d4 := if doiScheme.isPrefixOf d3 then afterFirstColon d3 else d3
  String.mk d4

/-- ASCII lowering, modelling `str.lower()` on the ASCII identifiers the
    script compares. -/
def lowerStr (s : String) : String := String.mk (s.toList.map Char.toLower)

/-- Numeric value of a decimal digit character. -/
def digitVal (c : Char) : Nat := c.toNat - 48

/-- Digits of a Python int literal after the first one: single
    underscores are permitted between digits. -/
def pyDigitsAux : List Char → Nat → Option Nat
  | [], acc => some acc
  | '_' :: c :: rest, acc =>
    if c.isDigit then pyDigitsAux rest (acc * 10 + digitVal c) else none
  | c :: rest, acc =>
    if c.isDigit then pyDigitsAux rest (acc * 10 + digitVal c) else none

/-- A non-empty digit group of a Python int literal. -/
def pyDigits : List Char → Option Nat
  | [] => none
  | c :: rest => if c.isDigit then pyDigitsAux rest (digitVal c) else none

/-- Python `int(s)` on an ASCII decimal string: surrounding whitespace,
    an optional sign, then digits with optional single underscores.
    `none` models ValueError. -/
def pyIntParse (s : String) : Option Int :=
  match pyStripL s.toList with
  | '+' :: rest => (pyDigits rest).map fun n => (n : Int)
  | '-' :: rest => (pyDigits rest).map fun n => -(n : Int)
  | l => (pyDigits l).map fun n => (n : Int)

/-- `extract_title`: `(work.get('title', {}) or {}).get('title', {}).get('value') or ''`
    behind an emptiness guard. -/
def extract_title (work : Json) : Option Json :=
  if !work.truthy then some (Json.str "") else do
    let a ← pyGet work "title" (Json.obj [])
    let b ← pyGet (pyOr a (Json.obj [])) "title" (Json.obj [])
    let c ← pyGet b "value" Json.null
    some (pyOr c (Json.str ""))

/-- Body of the `extract_contributors` loop: collect the truthy
    `credit-name -> value` of each contributor entry. -/
def contribLoop : List Json → Option (List Json)
  | [] => some []
  | c :: rest => do
    let cn ← pyGet c "credit-name" Json.null
    let name ← pyGet (pyOr cn (Json.obj [])) "value" Json.null
    let tail ← contribLoop rest
    some (if name.truthy then name :: tail else tail)

/-- `extract_contributors`. -/
def extract_contributors (work : Json) : Option (List Json) :=
  if !work.truthy then some [] else do
    let a ← pyGet work "contributors" (Json.obj [])
    let b ← pyGet (pyOr a (Json.obj [])) "contributor" (Json.arr [])
    let elems ← pyIter (pyOr b (Json.arr []))
    contribLoop elems

/-- `extract_journal`: `(work.get('journal-title') or {}).get('value')`,
    returned when truthy, else the empty string. -/
def extract_journal (work : Json) : Option Json :=
  if !work.truthy then some (Json.str "") else do
    let a ← pyGet work "journal-title" Json.null
    let jt ← pyGet (pyOr a (Json.obj [])) "value" Json.null
    some (if jt.truthy then jt else Json.str "")

/-- The summary branch of `extract_year`: guarded by an isinstance
    check on the summary itself, but not on its nested values. -/
def extractYearSummaryBranch (summaryWs : Json) : Option Json :=
  if summaryWs.truthy then
    let pd := match summaryWs with
      | .obj _ => pyOr (getD summaryWs "publication-date" Json.null) (Json.obj [])
      | _ => Json.obj []
    do
      let yRaw ← pyGet pd "year" Json.null
      let v ← pyGet (pyOr yRaw (Json.obj [])) "value" Json.null
      some (pyOr v (Json.str ""))
  else some (Json.str "")

/-- `extract_year(work, summary_ws)`: prefer the detail's
    publication-date year, else fall back to the summary's. -/
def extract_year (work summaryWs : Json) : Option Json :=
  if work.truthy then do
    let pdRaw ← pyGet work "publication-date" Json.null
    let yRaw ← pyGet (pyOr pdRaw (Json.obj [])) "year" Json.null
    let y ← pyGet (pyOr yRaw (Json.obj [])) "value" Json.null
    if y.truthy then some y else extractYearSummaryBranch summaryWs
  else extractYearSummaryBranch summaryWs

/-- `(e.get('external-id-type') or '').lower()`: raises unless the
    truthy-or-defaulted type is a string. -/
def entryTypeE (e : Json) : Option String := do
  let tRaw ← pyGet e "external-id-type" Json.null
  match pyOr tRaw (Json.str "") with
  | .str s => some (lowerStr s)
  | _ => none

/-- `e.get('external-id-value') or ''` for a dict entry. -/
def entryValJ (e : Json) : Json := pyOr (getD e "external-id-value" Json.null) (Json.str "")

/-- `(e.get('external-id-url') or {}).get('value') or ''`. -/
def entryUrlValue (e : Json) : Option Json := do
  let u ← pyGet e "external-id-url" Json.null
  let u2 ← pyGet (pyOr u (Json.obj [])) "value" Json.null
  some (pyOr u2 (Json.str ""))

/-- The type test `t == 'doi' or ('doi' in t)`. -/
def isDoiType (t : String) : Bool := t == "doi" || strContains t "doi"

/-- Loop of `extract_doi_and_url` over the external-id entries, carrying
    the doi and url accumulators. -/
def extDoiUrlLoop : List Json → String → Json → Option (String × Json)
  | [], doi, url => some (doi, url)
  | e :: rest, doi, url =>
    match entryTypeE e with
    | none => none
    | some t =>
      match (if isDoiType t then
               match entryValJ e with
               | .str s => some (normalizeDoiStr s)
               | _ => none
             else some doi) with
      | none => none
      | some doiNew =>
        match (if url.truthy then some url else entryUrlValue e) with
        | none => none
        | some urlNew => extDoiUrlLoop rest doiNew urlNew

/-- `work.get('external-ids') or {}` then `.get('external-id', []) or []`,
    as the list the loop iterates (empty when the work is falsy, since the
    loop is then never reached). -/
def extIdList (work : Json) : Option (List Json) :=
  if !work.truthy then some [] else do
    let extRaw ← pyGet work "external-ids" Json.null
    let eidRaw ← pyGet (pyOr extRaw (Json.obj [])) "external-id" (Json.arr [])
    pyIter (pyOr eidRaw (Json.arr []))

/-- `(work.get('url') or {}).get('value') or ''`: the direct-URL
    fallback consulted when the scan left the url empty. -/
def directUrlValue (work : Json) : Option Json := do
  let uRaw ← pyGet work "url" Json.null
  let u ← pyGet (pyOr uRaw (Json.obj [])) "value" Json.null
  some (pyOr u (Json.str ""))

/-- `extract_doi_and_url`. -/
def extract_doi_and_url (work : Json) : Option (String × Json) :=
  if !work.truthy then some ("", Json.str "") else do
    let es ← extIdList work
    let du ← extDoiUrlLoop es "" (Json.str "")
    if du.2.truthy then some du
    else do
      let u ← directUrlValue work
      some (du.1, u)

/-- Inner loop of `dict_safe_get`: walk the key path while the cursor is
    a dict; a non-dict mid-path, or a dict at the end, yields the default. -/
def dict_safe_get_loop : Json → List String → Json → Json
  | cur, [], dflt =>
    match cur with
    | .obj _ => dflt
    | _ => pyOr cur dflt
  | cur, k :: ks, dflt =>
    match cur with
    | .obj _ => dict_safe_get_loop (getD cur k (Json.obj [])) ks dflt
    | _ => dflt

/-- `dict_safe_get(d, *keys, default=dflt)`. -/
def dict_safe_get (d : Json) (keys : List String) (dflt : Json) : Json :=
  dict_safe_get_loop (match d with | .obj _ => d | _ => Json.obj []) keys dflt

/-- The summary-title fallback chain used in `main`:
    `dict_safe_get(ws,'title','title','value') or dict_safe_get(ws,'title')`. -/
def summaryTitleFallback (ws : Json) : Json :=
  pyOr (dict_safe_get ws ["title", "title", "value"] (Json.str ""))
    (dict_safe_get ws ["title"] (Json.str ""))

/-- Title assembly in `main`: detail title, else the summary fallback,
    sanitized. -/
def assembleTitle (detailed ws : Json) : Option String := do
  let t ← extract_title detailed
  some (sanitize_markdown (pyOr t (summaryTitleFallback ws)))

/-- Converts a list of extracted names to `', '.join(authors)`: raises
    (models TypeError) on non-string members. -/
def pyJoinStrs : List Json → Option (List String)
  | [] => some []
  | .str s :: rest => (pyJoinStrs rest).map fun ss => s :: ss
  | _ => none

/-- Authors assembly in `main`: detail contributors, else a single
    summary-level author-like string, comma-joined. -/
def assembleAuthors (detailed ws : Json) : Option String := do
  let authors ← extract_contributors detailed
  let authors ←
    if authors.isEmpty then do
      let a1 ← pyGet ws "author" Json.null
      let a2 ← pyGet ws "credit-name" Json.null
      match pyOr a1 (pyOr a2 (Json.str "")) with
      | .str s => some (if s.isEmpty then ([] : List Json) else [Json.str s])
      | _ => some ([] : List Json)
    else some authors
  if authors.isEmpty then some ""
  else (pyJoinStrs authors).map fun ss => String.intercalate ", " ss

/-- Venue assembly in `main`: detail journal, else the summary's
    `journal-title -> value`, sanitized. -/
def assembleJournal (detailed ws : Json) : Option String := do
  let j ← extract_journal detailed
  some (sanitize_markdown (pyOr j (dict_safe_get ws ["journal-title", "value"] (Json.str ""))))

/-- The DOI cell: `f"[{doi}](https://doi.org/{doi})"` when a DOI exists. -/
def doiMdOf (doi : String) : String :=
  if !doi.isEmpty then "[" ++ doi ++ "](https://doi.org/" ++ doi ++ ")" else ""

/-- `if not link and doi: link = f"https://doi.org/{doi}"`. -/
def assembleLink (url : Json) (doi : String) : Json :=
  if !url.truthy && !doi.isEmpty then Json.str ("https://doi.org/" ++ doi) else url

/-- A Publication Row as appended by `main`. The year and link keep the
    raw JSON value the code stores there; the other cells are strings. -/
structure Row where
  title : String
  authors : String
  journal : String
  year : Json
  doi : String
  link : Json

/-- Assembly of one Publication Row from a fetched detail and the first
    work summary. -/
def assembleRow (detailed ws : Json) : Option Row := do
  let title ← assembleTitle detailed ws
  let authorsMd ← assembleAuthors detailed ws
  let journal ← assembleJournal detailed ws
  let year ← extract_year detailed ws
  let du ← extract_doi_and_url detailed
  some ⟨if title.isEmpty then "(no title)" else title, authorsMd, journal,
        year, doiMdOf du.1, assembleLink du.2 du.1⟩

/-- `sort_key`: `int(r.get('year') or 0)`, with 0 on ValueError or
    TypeError. -/
def sort_key (y : Json) : Int :=
  match pyOr y (Json.num 0) with
  | .num n => n
  | .bool b => if b then 1 else 0
  | .str s =>
    match pyIntParse s with
    | some n => n
    | none => 0
  | _ => 0

/-- The sort key of a row. -/
def rowKey (r : Row) : Int := sort_key r.year

/-- Stable descending insertion: a row is placed after every
    already-placed row whose key is at least its own. -/
def insertRowDesc (r : Row) : List Row → List Row
  | [] => [r]
  | x :: xs =>
    if rowKey r ≤ rowKey x then x :: insertRowDesc r xs
    else r :: x :: xs

/-- `rows.sort(key=sort_key, reverse=True)`: Python's sort is stable and
    `reverse=True` preserves the original order of equal keys, so it is
    modelled as a stable descending insertion sort (stable sorts by a
    fixed key are extensionally unique). -/
def sortRows (rows : List Row) : List Row :=
  rows.foldl (fun acc r => insertRowDesc r acc) []

/-- What the loop body does to one Work Group. -/
inductive GroupOutcome where
  | skippedNoSummary
  | skippedNoPutCode
  | fetchFailed (pc : Json)
  | ok (pc : Json) (r : Row)

/-- Observable effects of the per-group loop, in order: a work-detail
    request, a warning on standard error, or the pacing sleep. -/
inductive Event where
  | fetchW (pc : Json)
  | warnW (pc : Json)
  | sleepE

/-- One iteration of the `for g in groups_list` loop in `main`. The
    fetcher oracle `fw` maps a put-code to the parsed response, `none`
    modelling a raised request failure. -/
def processGroup (fw : Json → Option Json) (g : Json) : Option GroupOutcome := do
  let wsRaw ← pyGet g "work-summary" Json.null
  let workSummaries := pyOr wsRaw (Json.arr [])
  if !workSummaries.truthy then some GroupOutcome.skippedNoSummary
  else do
    let ws0 ← pyIndex0 workSummaries
    let ws := pyOr ws0 (Json.obj [])
    let putCode ← pyGet ws "put-code" Json.null
    match putCode with
    | .null => some GroupOutcome.skippedNoPutCode
    | pc =>
      match fw pc with
      | none => some (GroupOutcome.fetchFailed pc)
      | some fetched => do
        let r ← assembleRow (pyOr fetched (Json.obj [])) ws
        some (GroupOutcome.ok pc r)

/-- The events one group outcome emits: the failed branch warns and
    `continue`s past the sleep; only the success branch sleeps. -/
def groupEvents : GroupOutcome → List Event
  | .skippedNoSummary => []
  | .skippedNoPutCode => []
  | .fetchFailed pc => [Event.fetchW pc, Event.warnW pc]
  | .ok pc _ => [Event.fetchW pc, Event.sleepE]

/-- The row a group outcome appends, if any. -/
def groupRow : GroupOutcome → Option Row
  | .ok _ r => some r
  | _ => none

/-- The whole group loop: accumulated rows and emitted events, `none`
    when an iteration raises an uncaught exception. -/
def runGroups (fw : Json → Option Json) : List Json → Option (List Row × List Event)
  | [] => some ([], [])
  | g :: rest => do
    let o ← processGroup fw g
    let re ← runGroups fw rest
    some ((groupRow o).toList ++ re.1, groupEvents o ++ re.2)

/-- Outcome of one run of `main`, abstracting rendering and file I/O:
    the exit status, whether the output file was written, the sorted
    rows the table is rendered from, and the loop's event trace. -/
structure RunResult where
  exitCode : Nat
  fileWritten : Bool
  rows : List Row
  events : List Event

/-- `main`, parameterized by the two fetch oracles. A failing record
    fetch is caught and turns into exit 1 with no file written; after a
    successful record fetch the groups are processed, rows sorted, and
    the file written with exit 0. `none` models an uncaught exception
    after the record fetch (malformed record shapes). -/
def mainRun (fetchRecord : Option Json) (fw : Json → Option Json) : Option RunResult :=
  match fetchRecord with
  | none => some ⟨1, false, [], []⟩
  | some record => do
    let asRaw ← pyGet record "activities-summary" (Json.obj [])
    let works ← pyGet (pyOr asRaw (Json.obj [])) "works" (Json.obj [])
    let glRaw ← pyGet (pyOr works (Json.obj [])) "group" (Json.arr [])
    let gl ← pyIter (pyOr glRaw (Json.arr []))
    let re ← runGroups fw gl
    some ⟨0, true, sortRows re.1, re.2⟩

/-- A value a `.get` may be applied to after an `or {}` guard: either
    falsy (the guard substitutes `{}`) or itself a dict. -/
def dictLike (v : Json) : Bool := !v.truthy || isObjB v

/-- A value a string method may be applied to after an `or ''` guard. -/
def strLike (v : Json) : Bool := !v.truthy || isStrB v

/-- A value Python can iterate over. -/
def iterableB : Json → Bool
  | .arr _ => true
  | .str _ => true
  | .obj _ => true
  | _ => false

/-- Shape under which `extract_title` cannot raise: each accessed level
    is absent, falsy behind an `or {}` guard, or a dict; the unguarded
    inner `title` value must be a dict outright. -/
def titleShape (w : Json) : Bool :=
  !w.truthy ||
    (isObjB w &&
      dictLike (getD w "title" (Json.obj [])) &&
      isObjB (getD (pyOr (getD w "title" (Json.obj [])) (Json.obj [])) "title" (Json.obj [])))

/-- Shape of one contributor entry `extract_contributors` can consume. -/
def contribElemOk (e : Json) : Bool :=
  isObjB e && dictLike (getD e "credit-name" Json.null)

/-- Shape under which `extract_contributors` cannot raise. -/
def contribsShape (w : Json) : Bool :=
  !w.truthy ||
    (isObjB w &&
      dictLike (getD w "contributors" (Json.obj [])) &&
      iterableB (pyOr
        (getD (pyOr (getD w "contributors" (Json.obj [])) (Json.obj [])) "contributor" (Json.arr []))
        (Json.arr [])) &&
      ((pyIter (pyOr
        (getD (pyOr (getD w "contributors" (Json.obj [])) (Json.obj [])) "contributor" (Json.arr []))
        (Json.arr []))).getD []).all contribElemOk)

/-- Shape under which `extract_journal` cannot raise. -/
def journalShape (w : Json) : Bool :=
  !w.truthy || (isObjB w && dictLike (getD w "journal-title" Json.null))

/-- Shape under which the detail branch of `extract_year` cannot raise. -/
def detailYearShape (w : Json) : Bool :=
  !w.truthy ||
    (isObjB w &&
      dictLike (getD w "publication-date" Json.null) &&
      dictLike (getD (pyOr (getD w "publication-date" Json.null) (Json.obj [])) "year" Json.null))

/-- Shape under which the summary branch of `extract_year` cannot raise.
    The summary itself is isinstance-guarded, but its nested
    `publication-date` and `year` values are not. -/
def summaryYearShape (ws : Json) : Bool :=
  !ws.truthy ||
    match ws with
    | .obj _ =>
      isObjB (pyOr (getD ws "publication-date" Json.null) (Json.obj [])) &&
      dictLike (getD (pyOr (getD ws "publication-date" Json.null) (Json.obj [])) "year" Json.null)
    | _ => true

/-- The external-id type string as a total function (the loop's
    computation, defaulting where the loop would raise). -/
def entryTypeTotal (e : Json) : String :=
  match pyOr (getD e "external-id-type" Json.null) (Json.str "") with
  | .str s => lowerStr s
  | _ => ""

/-- Shape of one external-id entry `extract_doi_and_url` can consume. -/
def extIdEntryOk (e : Json) : Bool :=
  isObjB e &&
    strLike (getD e "external-id-type" Json.null) &&
    (!isDoiType (entryTypeTotal e) || isStrB (entryValJ e)) &&
    dictLike (getD e "external-id-url" Json.null)

/-- Shape under which `extract_doi_and_url` cannot raise. -/
def doiUrlShape (w : Json) : Bool :=
  !w.truthy ||
    (isObjB w &&
      dictLike (getD w "external-ids" Json.null) &&
      iterableB (pyOr
        (getD (pyOr (getD w "external-ids" Json.null) (Json.obj [])) "external-id" (Json.arr []))
        (Json.arr [])) &&
      ((pyIter (pyOr
        (getD (pyOr (getD w "external-ids" Json.null) (Json.obj [])) "external-id" (Json.arr []))
        (Json.arr []))).getD []).all extIdEntryOk &&
      dictLike (getD w "url" Json.null))

/-- The summary's year value as the spec describes the fallback:
    `publication-date -> year -> value`, empty when absent or falsy. -/
def summaryYear (ws : Json) : Json :=
  if !ws.truthy then Json.str ""
  else
    let pd := match ws with
      | .obj _ => pyOr (getD ws "publication-date" Json.null) (Json.obj [])
      | _ => Json.obj []
    pyOr (getD (pyOr (getD pd "year" Json.null) (Json.obj [])) "value" Json.null) (Json.str "")

/-- Whether an external-id entry is DOI-like: its lowered type equals or
    contains "doi" (defined through the loop's own type computation). -/
def isDoiEntry (e : Json) : Bool :=
  match entryTypeE e with
  | some t => isDoiType t
  | none => false

/-- The raw external-id value string of an entry (total; the loop only
    consumes it where it is in fact a string). -/
def entryValStr (e : Json) : String :=
  match entryValJ e with
  | .str s => s
  | _ => ""

/-- Specification-side description of the link scan: the value of the
    first external identifier whose (or-defaulted) URL value is truthy,
    in list order. -/
def firstTruthyUrl : List Json → Option Json
  | [] => none
  | e :: rest =>
    match entryUrlValue e with
    | none => none
    | some v => if v.truthy then some v else firstTruthyUrl rest

/-- Event classifiers for trace statements. -/
def isSleepEvt : Event → Bool
  | .sleepE => true
  | _ => false

def isFetchEvt : Event → Bool
  | .fetchW _ => true
  | _ => false

def isWarnEvt : Event → Bool
  | .warnW _ => true
  | _ => false

/-! ## Basic lemmas about the embedded Python primitives -/

theorem pyGet_of_isObj {v : Json} (k : String) (dflt : Json) (h : isObjB v = true) :
    pyGet v k dflt = some (getD v k dflt) := by
  cases v <;> simp_all [isObjB, pyGet]

theorem isObjB_pyOr_obj {a : Json} (h : dictLike a = true) :
    isObjB (pyOr a (Json.obj [])) = true := by
  by_cases ht : a.truthy <;> simp_all [dictLike, pyOr, isObjB]

theorem isStr_pyOr_str {a : Json} (h : strLike a = true) :
    ∃ s, pyOr a (Json.str "") = Json.str s := by
  by_cases ht : a.truthy
  · cases a <;> simp_all [strLike, isStrB, pyOr]
  · exact ⟨"", by simp [pyOr, ht]⟩

theorem truthy_pyOr_left {a b : Json} (h : a.truthy = true) : pyOr a b = a := by
  simp [pyOr, h]

theorem truthy_pyOr_right {a b : Json} (h : a.truthy = false) : pyOr a b = b := by
  simp [pyOr, h]

/-! ## The DOI normalization rule (claim C6) -/

theorem replaceAllAux_of_not_contains (fuel : Nat) :
    ∀ s pat : List Char, containsSeq s pat = false → replaceAllAux fuel s pat = s := by
  induction fuel with
  | zero => intro s pat _; cases s <;> simp [replaceAllAux]
  | succ n ih =>
    intro s pat h
    cases s with
    | nil => simp [replaceAllAux]
    | cons c rest =>
      simp only [containsSeq, Bool.or_eq_false_iff] at h
      simp [replaceAllAux, h.1, ih rest pat h.2]

theorem replaceAll_of_not_contains {s pat : List Char} (h : containsSeq s pat = false) :
    replaceAll s pat = s :=
  replaceAllAux_of_not_contains s.length s pat h

/-- C6 counterexample: `'doi: 10.1/x'` strips to a bare DOI with a
    leading space (the text after the first colon), and a second
    application of the rule removes that space, so the rule is not
    idempotent on its own outputs. -/
theorem c6_counterexample :
    normalizeDoiStr "doi: 10.1/x" = " 10.1/x" ∧
      normalizeDoiStr (normalizeDoiStr "doi: 10.1/x") ≠ normalizeDoiStr "doi: 10.1/x" := by
  constructor
  · decide
  · decide

/-- C6 amended: the strip-prefix rule fixes exactly the fully bare
    strings — those with no surrounding Python whitespace, no occurrence
    of `https://doi.org/` or `http://doi.org/` anywhere, and no leading
    `doi:`. On such already-bare DOIs a second application changes
    nothing; outputs with a leading space (from `doi: ...`) or with a
    reassembled `doi.org` prefix are not fixed. -/
theorem c6_amended (s : String)
    (h1 : pyStripL s.toList = s.toList)
    (h2 : containsSeq s.toList doiPrefHttps = false)
    (h3 : containsSeq s.toList doiPrefHttp = false)
    (h4 : doiScheme.isPrefixOf s.toList = false) :
    normalizeDoiStr s = s := by
  simp only [normalizeDoiStr, h1]
  have h4' : doiScheme.isPrefixOf s.data = false := h4
  rw [replaceAll_of_not_contains h2, replaceAll_of_not_contains h3,
    if_neg (by simp [← List.isPrefixOf_iff_prefix, h4'])]
  rfl

/-- Witness for C6 amended at the bare DOI `10.1000/xyz`. -/
theorem c6_amended_witness : normalizeDoiStr "10.1000/xyz" = "10.1000/xyz" :=
  c6_amended "10.1000/xyz" (by decide) (by decide) (by decide) (by decide)

/-! ## Sanitization (claim C7): the sanitizer is idempotent -/

theorem isPySpace_mapNlChar (c : Char) : isPySpace (mapNlChar c) = isPySpace c := by
  by_cases h : c = '\n' <;> simp [mapNlChar, h, isPySpace]

theorem mapNlChar_idem (c : Char) : mapNlChar (mapNlChar c) = mapNlChar c := by
  by_cases h : c = '\n' <;> simp [mapNlChar, h]

theorem map_mapNl_idem (l : List Char) :
    (l.map mapNlChar).map mapNlChar = l.map mapNlChar := by
  rw [List.map_map]
  exact List.map_congr_left fun c _ => mapNlChar_idem c

theorem dropWhile_map_mapNl (l : List Char) :
    (l.map mapNlChar).dropWhile isPySpace = (l.dropWhile isPySpace).map mapNlChar := by
  induction l with
  | nil => rfl
  | cons c rest ih =>
    by_cases h : isPySpace c
    · simp [List.dropWhile_cons, isPySpace_mapNlChar, h, ih]
    · simp [List.dropWhile_cons, isPySpace_mapNlChar, h]

theorem pyStripL_map_mapNl (l : List Char) :
    pyStripL (l.map mapNlChar) = (pyStripL l).map mapNlChar := by
  unfold pyStripL
  rw [dropWhile_map_mapNl, ← List.map_reverse, dropWhile_map_mapNl, ← List.map_reverse]

theorem pyStripL_eq_rdropWhile_dropWhile (l : List Char) :
    pyStripL l = List.rdropWhile isPySpace (l.dropWhile isPySpace) := rfl

theorem dropWhile_length_le (p : Char → Bool) (l : List Char) :
    (l.dropWhile p).length ≤ l.length := by
  induction l with
  | nil => simp
  | cons c rest ih =>
    by_cases h : p c
    · rw [List.dropWhile_cons_of_pos h]; exact Nat.le_succ_of_le ih
    · rw [List.dropWhile_cons_of_neg h]

theorem dropWhile_rdropWhile_of_dropWhile_eq {l : List Char}
    (h : l.dropWhile isPySpace = l) :
    (List.rdropWhile isPySpace l).dropWhile isPySpace = List.rdropWhile isPySpace l := by
  obtain ⟨t, ht⟩ := List.rdropWhile_prefix isPySpace l
  cases hR : List.rdropWhile isPySpace l with
  | nil => rfl
  | cons a as =>
    rw [hR] at ht
    have hl : l = a :: (as ++ t) := by rw [← ht]; simp
    have hpa : ¬ isPySpace a := by
      intro hpa
      rw [hl, List.dropWhile_cons_of_pos hpa] at h
      have hlen := congrArg List.length h
      have hle := dropWhile_length_le isPySpace (as ++ t)
      simp at hlen hle
      omega
    simp [List.dropWhile_cons, hpa]

theorem pyStripL_idem (l : List Char) : pyStripL (pyStripL l) = pyStripL l := by
  rw [pyStripL_eq_rdropWhile_dropWhile, pyStripL_eq_rdropWhile_dropWhile,
    dropWhile_rdropWhile_of_dropWhile_eq (List.dropWhile_idempotent isPySpace l),
    List.rdropWhile_idempotent]

theorem sanitize_idem (v : Json) :
    sanitizeStr (sanitize_markdown v) = sanitize_markdown v := by
  cases v with
  | str s =>
    show String.mk (pyStripL ((pyStripL (s.toList.map mapNlChar)).map mapNlChar)) = _
    rw [← pyStripL_map_mapNl, map_mapNl_idem, pyStripL_idem]
    rfl
  | null => rfl
  | bool b => rfl
  | num n => rfl
  | arr l => rfl
  | obj l => rfl

theorem optBind_eq_some {α β : Type} {x : Option α} {f : α → Option β} {b : β}
    (h : (x >>= f) = some b) : ∃ a, x = some a ∧ f a = some b := by
  cases x <;> simp_all

theorem assembleTitle_sanitized {d ws : Json} {t : String}
    (h : assembleTitle d ws = some t) : sanitizeStr t = t := by
  unfold assembleTitle at h
  obtain ⟨tE, _, ht⟩ := optBind_eq_some h
  simp only [Option.some.injEq] at ht
  rw [← ht]
  exact sanitize_idem _

theorem assembleJournal_sanitized {d ws : Json} {t : String}
    (h : assembleJournal d ws = some t) : sanitizeStr t = t := by
  unfold assembleJournal at h
  obtain ⟨jE, _, hj⟩ := optBind_eq_some h
  simp only [Option.some.injEq] at hj
  rw [← hj]
  exact sanitize_idem _

/-- C7 counterexample: a contributor credit-name containing a newline
    reaches the assembled row's authors cell verbatim — the extraction
    outputs for authors (and year, DOI) are never passed through
    `sanitize_markdown`, contradicting the claim that every string
    output of the extraction stage is sanitized before assembly. -/
theorem c7_counterexample :
    (assembleRow
        (Json.obj [("contributors", Json.obj [("contributor", Json.arr
          [Json.obj [("credit-name", Json.obj [("value", Json.str "A\nB")])]])])])
        (Json.obj [])).map Row.authors = some "A\nB" ∧
      sanitizeStr "A\nB" = "A B" ∧ "A\nB" ≠ "A B" := by
  refine ⟨rfl, by decide, by decide⟩

/-- C7 amended: only the title and venue cells of an assembled row are
    sanitized (they are fixed points of the sanitizer, as is the
    `(no title)` placeholder); author names, the year, and the DOI are
    not passed through the sanitizer. -/
theorem c7_amended (detailed ws : Json) (r : Row)
    (h : assembleRow detailed ws = some r) :
    sanitizeStr r.title = r.title ∧ sanitizeStr r.journal = r.journal := by
  unfold assembleRow at h
  obtain ⟨t, ht, h⟩ := optBind_eq_some h
  obtain ⟨a, ha, h⟩ := optBind_eq_some h
  obtain ⟨j, hj, h⟩ := optBind_eq_some h
  obtain ⟨y, hy, h⟩ := optBind_eq_some h
  obtain ⟨du, hdu, hr⟩ := optBind_eq_some h
  simp only [Option.some.injEq] at hr
  rw [← hr]
  constructor
  · by_cases hemp : t.isEmpty <;> simp [hemp]
    · decide
    · exact assembleTitle_sanitized ht
  · exact assembleJournal_sanitized hj

/-- Witness for C7 amended: the row assembled from an empty detail and
    summary has sanitizer-fixed title and venue cells. -/
theorem c7_amended_witness : sanitizeStr "(no title)" = "(no title)" ∧ sanitizeStr "" = "" :=
  c7_amended (Json.obj []) (Json.obj [])
    ⟨"(no title)", "", "", Json.str "", "", Json.str ""⟩ rfl

/-! ## Sorting (claim C4) -/

theorem mem_insertRowDesc {r x : Row} {l : List Row} :
    x ∈ insertRowDesc r l ↔ x = r ∨ x ∈ l := by
  induction l with
  | nil => simp [insertRowDesc]
  | cons b bs ih =>
    by_cases h : rowKey r ≤ rowKey b
    · rw [insertRowDesc, if_pos h]
      simp only [List.mem_cons, ih]
      tauto
    · rw [insertRowDesc, if_neg h]
      simp only [List.mem_cons]

theorem insertRowDesc_perm (r : Row) (l : List Row) :
    List.Perm (insertRowDesc r l) (r :: l) := by
  induction l with
  | nil => simp [insertRowDesc]
  | cons b bs ih =>
    by_cases h : rowKey r ≤ rowKey b
    · simp only [insertRowDesc, if_pos h]
      exact (ih.cons b).trans (List.Perm.swap r b bs)
    · simp [insertRowDesc, h]

theorem insertRowDesc_sorted {r : Row} {l : List Row}
    (hs : l.Pairwise fun a b => rowKey b ≤ rowKey a) :
    (insertRowDesc r l).Pairwise fun a b => rowKey b ≤ rowKey a := by
  induction l with
  | nil => simp [insertRowDesc]
  | cons b bs ih =>
    rw [List.pairwise_cons] at hs
    by_cases h : rowKey r ≤ rowKey b
    · rw [insertRowDesc, if_pos h, List.pairwise_cons]
      refine ⟨fun x hx => ?_, ih hs.2⟩
      rcases mem_insertRowDesc.mp hx with hxr | hxl
      · rw [hxr]; exact h
      · exact hs.1 x hxl
    · rw [insertRowDesc, if_neg h, List.pairwise_cons]
      push_neg at h
      refine ⟨fun x hx => ?_, List.pairwise_cons.mpr hs⟩
      rcases List.mem_cons.mp hx with hxb | hxl
      · rw [hxb]; exact le_of_lt h
      · exact le_of_lt (lt_of_le_of_lt (hs.1 x hxl) h)

theorem insertRowDesc_filter (c : Int) (r : Row) {l : List Row}
    (hs : l.Pairwise fun a b => rowKey b ≤ rowKey a) :
    (insertRowDesc r l).filter (fun x => rowKey x == c) =
      l.filter (fun x => rowKey x == c) ++ (if rowKey r == c then [r] else []) := by
  induction l with
  | nil =>
    by_cases hr : rowKey r == c <;> simp [insertRowDesc, List.filter_cons, hr]
  | cons b bs ih =>
    rw [List.pairwise_cons] at hs
    by_cases h : rowKey r ≤ rowKey b
    · rw [insertRowDesc, if_pos h]
      rw [List.filter_cons, List.filter_cons]
      by_cases hb : rowKey b == c
      · simp only [hb, if_pos rfl]
        rw [ih hs.2]
        simp
      · simp only [hb]
        rw [ih hs.2]
        simp
    · push_neg at h
      rw [insertRowDesc, if_neg (not_le.mpr h)]
      by_cases hr : rowKey r == c
      · have hempty : (b :: bs).filter (fun x => rowKey x == c) = [] := by
          rw [List.filter_eq_nil_iff]
          intro x hx
          have hxle : rowKey x ≤ rowKey b := by
            rcases List.mem_cons.mp hx with hxb | hxl
            · rw [hxb]
            · exact hs.1 x hxl
          have : rowKey x < rowKey r := lt_of_le_of_lt hxle h
          have hrc : rowKey r = c := by simpa using hr
          simp only [beq_iff_eq]
          omega
        rw [List.filter_cons_of_pos (by simpa using hr), hempty]
        simp [hr]
      · rw [List.filter_cons_of_neg (by simpa using hr)]
        simp [hr]

theorem sortRows_foldl_sorted (rows : List Row) :
    ∀ acc : List Row, (acc.Pairwise fun a b => rowKey b ≤ rowKey a) →
      ((rows.foldl (fun a r => insertRowDesc r a) acc).Pairwise fun a b => rowKey b ≤ rowKey a) := by
  induction rows with
  | nil => intro acc h; exact h
  | cons r rs ih =>
    intro acc h
    exact ih (insertRowDesc r acc) (insertRowDesc_sorted h)

theorem sortRows_foldl_perm (rows : List Row) :
    ∀ acc : List Row,
      List.Perm (rows.foldl (fun a r => insertRowDesc r a) acc) (acc ++ rows) := by
  induction rows with
  | nil => intro acc; simp
  | cons r rs ih =>
    intro acc
    refine (ih (insertRowDesc r acc)).trans ?_
    have h1 : List.Perm (insertRowDesc r acc ++ rs) ((r :: acc) ++ rs) :=
      (insertRowDesc_perm r acc).append_right rs
    refine h1.trans ?_
    simp only [List.cons_append]
    exact (List.perm_middle).symm

theorem sortRows_foldl_filter (c : Int) (rows : List Row) :
    ∀ acc : List Row, (acc.Pairwise fun a b => rowKey b ≤ rowKey a) →
      (rows.foldl (fun a r => insertRowDesc r a) acc).filter (fun x => rowKey x == c) =
        acc.filter (fun x => rowKey x == c) ++ rows.filter (fun x => rowKey x == c) := by
  induction rows with
  | nil => intro acc _; simp
  | cons r rs ih =>
    intro acc h
    simp only [List.foldl_cons]
    rw [ih (insertRowDesc r acc) (insertRowDesc_sorted h),
      insertRowDesc_filter c r h, List.filter_cons]
    by_cases hr : rowKey r == c
    · simp [hr]
    · simp [hr]

/-- C4 counterexample: a row whose year parses to a negative integer
    sorts below a row with an empty year, so sort key 0 is not the
    lowest possible key as the claim's parenthetical asserts. -/
theorem c4_counterexample :
    sortRows [⟨"a", "", "", Json.str "-3", "", Json.str ""⟩,
              ⟨"b", "", "", Json.str "", "", Json.str ""⟩] =
      [⟨"b", "", "", Json.str "", "", Json.str ""⟩,
       ⟨"a", "", "", Json.str "-3", "", Json.str ""⟩] ∧
      rowKey ⟨"a", "", "", Json.str "-3", "", Json.str ""⟩ <
        rowKey ⟨"b", "", "", Json.str "", "", Json.str ""⟩ :=
  ⟨rfl, by decide⟩

/-- C4 amended: the rendered order is the stable descending sort by the
    year parsed as a Python int — the output is a permutation of the
    assembled rows, pairwise descending in the key, and rows of equal
    key keep their assembly order (filtering by any key value is
    order-preserving); empty or unparsable year fields take sort key 0,
    which is the lowest only among rows whose parsed years are all
    nonnegative (a negative parsed year sorts lower). -/
theorem c4_amended (rows : List Row) :
    ((sortRows rows).Pairwise fun a b => rowKey b ≤ rowKey a) ∧
      List.Perm (sortRows rows) rows ∧
      (∀ c : Int, (sortRows rows).filter (fun x => rowKey x == c) =
        rows.filter (fun x => rowKey x == c)) ∧
      (∀ s : String, pyIntParse s = none → sort_key (Json.str s) = 0) ∧
      (∀ y : Json, y.truthy = false → sort_key y = 0) := by
  refine ⟨sortRows_foldl_sorted rows [] (by simp), ?_, ?_, ?_, ?_⟩
  · simpa using sortRows_foldl_perm rows []
  · intro c
    simpa using sortRows_foldl_filter c rows [] (by simp)
  · intro s hs
    by_cases ht : (Json.str s).truthy
    · simp [sort_key, pyOr, ht, hs]
    · simp [sort_key, pyOr, ht]
  · intro y hy
    simp [sort_key, pyOr, hy]

/-- Witness for C4 amended on a concrete three-row list with a tie. -/
theorem c4_amended_witness :
    ((sortRows [⟨"a", "", "", Json.str "2020", "", Json.str ""⟩,
                ⟨"b", "", "", Json.str "x", "", Json.str ""⟩,
                ⟨"c", "", "", Json.str "2021", "", Json.str ""⟩]).Pairwise
        fun a b => rowKey b ≤ rowKey a) ∧
      sort_key (Json.str "x") = 0 ∧ sort_key (Json.str "") = 0 := by
  refine ⟨(c4_amended _).1, ?_, ?_⟩
  · exact (c4_amended []).2.2.2.1 "x" (by decide)
  · exact (c4_amended []).2.2.2.2 (Json.str "") (by decide)


/-! ## The DOI / link scan (claims C5 and C10) -/

theorem pyOr_emptyStr_of_not_truthy {a : Json}
    (h : (pyOr a (Json.str "")).truthy = false) : pyOr a (Json.str "") = Json.str "" := by
  by_cases ht : a.truthy
  · rw [truthy_pyOr_left ht] at h ⊢
    rw [h] at ht
    cases ht
  · exact truthy_pyOr_right (by simpa using ht)

theorem firstTruthyUrl_truthy {es : List Json} {v : Json}
    (h : firstTruthyUrl es = some v) : v.truthy = true := by
  induction es with
  | nil => cases h
  | cons e rest ih =>
    unfold firstTruthyUrl at h
    split at h
    · cases h
    · split at h
      · cases h
        assumption
      · exact ih h

theorem extDoiUrlLoop_url_truthy {es : List Json} {d d' : String} {u u' : Json}
    (h : extDoiUrlLoop es d u = some (d', u')) (ht : u.truthy = true) : u' = u := by
  induction es generalizing d with
  | nil =>
    unfold extDoiUrlLoop at h
    cases h
    rfl
  | cons e rest ih =>
    unfold extDoiUrlLoop at h
    split at h
    · cases h
    · split at h
      · cases h
      · split at h
        · cases h
        · rename_i un hun
          rw [if_pos ht] at hun
          cases hun
          exact ih h

theorem extDoiUrlLoop_url_scan {es : List Json} {d d' : String} {u' : Json}
    (h : extDoiUrlLoop es d (Json.str "") = some (d', u')) :
    u' = (firstTruthyUrl es).getD (Json.str "") := by
  induction es generalizing d with
  | nil =>
    unfold extDoiUrlLoop at h
    cases h
    rfl
  | cons e rest ih =>
    unfold extDoiUrlLoop at h
    split at h
    · cases h
    · split at h
      · cases h
      · split at h
        · cases h
        · rename_i un hun
          rw [if_neg (by decide)] at hun
          simp only [firstTruthyUrl, hun]
          by_cases hv : un.truthy
          · rw [if_pos hv]
            simpa using extDoiUrlLoop_url_truthy h hv
          · rw [if_neg hv]
            have hun' : un = Json.str "" := by
              unfold entryUrlValue at hun
              obtain ⟨x, hx, hun⟩ := optBind_eq_some hun
              obtain ⟨x2, hx2, hun⟩ := optBind_eq_some hun
              simp only [Option.some.injEq] at hun
              rw [← hun] at hv ⊢
              exact pyOr_emptyStr_of_not_truthy (by simpa using hv)
            rw [hun'] at h
            exact ih h

theorem isDoiEntry_of_entryType {e : Json} {t : String}
    (hT : entryTypeE e = some t) : isDoiEntry e = isDoiType t := by
  simp [isDoiEntry, hT]

theorem extDoiUrlLoop_doi_last {es : List Json} {d d' : String} {u u' : Json}
    (h : extDoiUrlLoop es d u = some (d', u')) :
    d' = match (es.filter isDoiEntry).getLast? with
         | some e => normalizeDoiStr (entryValStr e)
         | none => d := by
  induction es generalizing d u with
  | nil =>
    unfold extDoiUrlLoop at h
    cases h
    rfl
  | cons e rest ih =>
    unfold extDoiUrlLoop at h
    split at h
    · cases h
    · rename_i t hT
      split at h
      · cases h
      · rename_i dn hdn
        split at h
        · cases h
        · rename_i un hun
          by_cases hdoi : isDoiType t
          · rw [if_pos hdoi] at hdn
            split at hdn
            · rename_i s hs
              cases hdn
              rw [List.filter_cons_of_pos (by rw [isDoiEntry_of_entryType hT]; exact hdoi)]
              have hrec := ih h
              cases hfr : rest.filter isDoiEntry with
              | nil =>
                rw [hfr] at hrec
                simp only [List.getLast?_singleton]
                rw [hrec]
                simp [entryValStr, hs]
              | cons x xs =>
                rw [hfr] at hrec
                rw [List.getLast?_cons_cons]
                exact hrec
            · cases hdn
          · rw [if_neg hdoi] at hdn
            cases hdn
            rw [List.filter_cons_of_neg (by rw [isDoiEntry_of_entryType hT]; simpa using hdoi)]
            exact ih h

theorem extDoiUrlLoop_doi_vals_str {es : List Json} {d : String} {u : Json} {r : String × Json}
    (h : extDoiUrlLoop es d u = some r) :
    ∀ e ∈ es, isDoiEntry e = true → ∃ s, entryValJ e = Json.str s := by
  induction es generalizing d u with
  | nil => intro e he; cases he
  | cons e0 rest ih =>
    intro e he hdoiE
    unfold extDoiUrlLoop at h
    split at h
    · cases h
    · rename_i t hT
      split at h
      · cases h
      · rename_i dn hdn
        split at h
        · cases h
        · rename_i un hun
          rcases List.mem_cons.mp he with he0 | hrest
          · subst he0
            rw [isDoiEntry_of_entryType hT] at hdoiE
            rw [if_pos hdoiE] at hdn
            split at hdn
            · rename_i s hs
              exact ⟨s, hs⟩
            · cases hdn
          · exact ih h e hrest hdoiE

/-- C5: under a raise-free evaluation, the extracted link is the URL
    value of the first external identifier (regardless of type) whose
    URL value is non-empty; when no identifier carries a non-empty URL
    the link is the detail's direct URL field (empty for a falsy
    detail); and a row whose link is empty but whose DOI is not gets
    exactly the link `https://doi.org/` followed by the DOI. -/
theorem c5_link_rule (work : Json) (doi : String) (url : Json) (es : List Json)
    (hex : extract_doi_and_url work = some (doi, url))
    (hes : extIdList work = some es) :
    (∀ v, firstTruthyUrl es = some v → url = v) ∧
      (firstTruthyUrl es = none → work.truthy = true →
        ∃ dv, directUrlValue work = some dv ∧ url = dv) ∧
      (firstTruthyUrl es = none → work.truthy = false → url = Json.str "") ∧
      (∀ u : Json, ∀ dd : String, u.truthy = false → dd ≠ "" →
        assembleLink u dd = Json.str ("https://doi.org/" ++ dd)) := by
  have hLink : ∀ u : Json, ∀ dd : String, u.truthy = false → dd ≠ "" →
      assembleLink u dd = Json.str ("https://doi.org/" ++ dd) := by
    intro u dd hu hd
    simp [assembleLink, hu, String.isEmpty_iff, hd]
  by_cases hw : work.truthy = true
  · unfold extract_doi_and_url at hex
    rw [if_neg (by simp [hw])] at hex
    obtain ⟨es0, hes0, hex⟩ := optBind_eq_some hex
    rw [hes0] at hes
    injection hes with hes
    subst hes
    obtain ⟨du, hdu, hex⟩ := optBind_eq_some hex
    have hscan := extDoiUrlLoop_url_scan
      (show extDoiUrlLoop es0 "" (Json.str "") = some (du.1, du.2) from hdu)
    cases hfu : firstTruthyUrl es0 with
    | some v =>
      rw [hfu] at hscan
      simp only [Option.getD_some] at hscan
      have hvt := firstTruthyUrl_truthy hfu
      rw [if_pos (by rw [hscan]; exact hvt)] at hex
      injection hex with hex
      refine ⟨?_, ?_, ?_, hLink⟩
      · intro v' hv'
        injection hv' with hv'
        subst hv'
        have h2 : url = du.2 := (congrArg Prod.snd hex).symm
        rw [h2, hscan]
      · intro hnone
        cases hnone
      · intro hnone
        cases hnone
    | none =>
      rw [hfu] at hscan
      simp only [Option.getD_none] at hscan
      rw [if_neg (by rw [hscan]; decide)] at hex
      obtain ⟨dv, hdv, hex⟩ := optBind_eq_some hex
      injection hex with hex
      refine ⟨?_, ?_, ?_, hLink⟩
      · intro v hv
        cases hv
      · intro _ _
        exact ⟨dv, hdv, (congrArg Prod.snd hex).symm⟩
      · intro _ hwf
        rw [hwf] at hw
        cases hw
  · have hwb : work.truthy = false := by simpa using hw
    unfold extract_doi_and_url at hex
    rw [if_pos (by rw [hwb]; rfl)] at hex
    injection hex with hex
    unfold extIdList at hes
    rw [if_pos (by rw [hwb]; rfl)] at hes
    injection hes with hes
    subst hes
    refine ⟨?_, ?_, ?_, hLink⟩
    · intro v hv
      cases hv
    · intro _ hwt
      exact absurd hwt hw
    · intro _ _
      exact (congrArg Prod.snd hex).symm

/-- Witness for C5 on a detail with no external identifiers but a
    direct URL, plus the DOI-to-link synthesis at a concrete DOI. -/
theorem c5_link_rule_witness :
    (∃ dv, directUrlValue (Json.obj [("url", Json.obj [("value", Json.str "direct")])]) =
        some dv ∧ Json.str "direct" = dv) ∧
      assembleLink (Json.str "") "10.1/x" = Json.str ("https://doi.org/" ++ "10.1/x") := by
  refine ⟨?_, ?_⟩
  · exact (c5_link_rule (Json.obj [("url", Json.obj [("value", Json.str "direct")])]) ""
      (Json.str "direct") [] rfl rfl).2.1 rfl rfl
  · exact (c5_link_rule (Json.obj [("url", Json.obj [("value", Json.str "direct")])]) ""
      (Json.str "direct") [] rfl rfl).2.2.2 (Json.str "") "10.1/x" rfl (by decide)

/-- C10: when more than one external identifier is DOI-like, the
    returned DOI is the normalized value of the last such entry in list
    order (later matches overwrite earlier ones), while the returned
    link is still the first non-empty external-identifier URL. -/
theorem c10_doi_last_wins (work : Json) (doi : String) (url : Json) (es : List Json)
    (hex : extract_doi_and_url work = some (doi, url))
    (hes : extIdList work = some es)
    (hmany : 1 < (es.filter isDoiEntry).length) :
    (∃ e s, (es.filter isDoiEntry).getLast? = some e ∧ entryValJ e = Json.str s ∧
        doi = normalizeDoiStr s) ∧
      (∀ v, firstTruthyUrl es = some v → url = v) := by
  by_cases hw : work.truthy = true
  · unfold extract_doi_and_url at hex
    rw [if_neg (by simp [hw])] at hex
    obtain ⟨es0, hes0, hex⟩ := optBind_eq_some hex
    rw [hes0] at hes
    injection hes with hes
    subst hes
    obtain ⟨du, hdu, hex⟩ := optBind_eq_some hex
    have hscan := extDoiUrlLoop_url_scan
      (show extDoiUrlLoop es0 "" (Json.str "") = some (du.1, du.2) from hdu)
    have hurlDoi : doi = du.1 ∧ (∀ v, firstTruthyUrl es0 = some v → url = v) := by
      cases hfu : firstTruthyUrl es0 with
      | some v =>
        rw [hfu] at hscan
        simp only [Option.getD_some] at hscan
        have hvt := firstTruthyUrl_truthy hfu
        rw [if_pos (by rw [hscan]; exact hvt)] at hex
        injection hex with hex
        refine ⟨(congrArg Prod.fst hex).symm, fun v' hv' => ?_⟩
        injection hv' with hv'
        subst hv'
        have h2 : url = du.2 := (congrArg Prod.snd hex).symm
        rw [h2, hscan]
      | none =>
        rw [hfu] at hscan
        simp only [Option.getD_none] at hscan
        rw [if_neg (by rw [hscan]; decide)] at hex
        obtain ⟨dv, hdv, hex⟩ := optBind_eq_some hex
        injection hex with hex
        exact ⟨(congrArg Prod.fst hex).symm, fun v hv => by cases hv⟩
    refine ⟨?_, hurlDoi.2⟩
    have hlast := extDoiUrlLoop_doi_last
      (show extDoiUrlLoop es0 "" (Json.str "") = some (du.1, du.2) from hdu)
    have hvals := extDoiUrlLoop_doi_vals_str hdu
    cases hl : es0.filter isDoiEntry with
    | nil =>
      rw [hl] at hmany
      simp at hmany
    | cons a as =>
      have hne : a :: as ≠ [] := by simp
      have hgl : (a :: as).getLast? = some ((a :: as).getLast hne) :=
        List.getLast?_eq_getLast _ _
      have hemem : (a :: as).getLast hne ∈ es0.filter isDoiEntry := by
        rw [hl]
        exact List.getLast_mem hne
      obtain ⟨s, hs⟩ := hvals ((a :: as).getLast hne)
        (List.mem_filter.mp hemem).1 (List.mem_filter.mp hemem).2
      have hD : du.1 = normalizeDoiStr (entryValStr ((a :: as).getLast hne)) := by
        rw [hl, hgl] at hlast
        exact hlast
      refine ⟨(a :: as).getLast hne, s, hgl, hs, ?_⟩
      rw [hurlDoi.1, hD]
      simp [entryValStr, hs]
  · have hwb : work.truthy = false := by simpa using hw
    unfold extIdList at hes
    rw [if_pos (by rw [hwb]; rfl)] at hes
    injection hes with hes
    subst hes
    simp at hmany

/-- Witness for C10 on a detail with two DOI-like identifiers: the
    second (last) one's normalized value is returned. -/
theorem c10_doi_last_wins_witness :
    ∃ e s,
      (([Json.obj [("external-id-type", Json.str "doi"),
                   ("external-id-value", Json.str "10.1/a")],
         Json.obj [("external-id-type", Json.str "DOI"),
                   ("external-id-value", Json.str "doi:10.2/b")]] : List Json).filter
          isDoiEntry).getLast? = some e ∧
        entryValJ e = Json.str s ∧ "10.2/b" = normalizeDoiStr s :=
  (c10_doi_last_wins
    (Json.obj [("external-ids", Json.obj [("external-id", Json.arr
      [Json.obj [("external-id-type", Json.str "doi"),
                 ("external-id-value", Json.str "10.1/a")],
       Json.obj [("external-id-type", Json.str "DOI"),
                 ("external-id-value", Json.str "doi:10.2/b")]])])])
    "10.2/b" (Json.str "")
    [Json.obj [("external-id-type", Json.str "doi"),
               ("external-id-value", Json.str "10.1/a")],
     Json.obj [("external-id-type", Json.str "DOI"),
               ("external-id-value", Json.str "doi:10.2/b")]]
    rfl rfl (by decide)).1

/-! ## The group loop and the two-tier error policy (claims C3, C8, C9) -/

theorem runGroups_eq {fw : Json → Option Json} {gl : List Json} {rs : List Row}
    {es : List Event} (h : runGroups fw gl = some (rs, es)) :
    ∃ os : List GroupOutcome, List.mapM (processGroup fw) gl = some os ∧
      rs = os.filterMap groupRow ∧ es = (os.map groupEvents).flatten := by
  induction gl generalizing rs es with
  | nil =>
    unfold runGroups at h
    injection h with h
    refine ⟨[], rfl, ?_, ?_⟩
    · exact (congrArg Prod.fst h).symm
    · exact (congrArg Prod.snd h).symm
  | cons g rest ih =>
    unfold runGroups at h
    obtain ⟨o, ho, h⟩ := optBind_eq_some h
    obtain ⟨re, hre, h⟩ := optBind_eq_some h
    injection h with h
    obtain ⟨os, hos, h1, h2⟩ := ih (show runGroups fw rest = some (re.1, re.2) from hre)
    have hrs : rs = (groupRow o).toList ++ re.1 := (congrArg Prod.fst h).symm
    have hes : es = groupEvents o ++ re.2 := (congrArg Prod.snd h).symm
    refine ⟨o :: os, ?_, ?_, ?_⟩
    · rw [List.mapM_cons, ho, hos]
      rfl
    · rw [hrs, h1, List.filterMap_cons]
      cases groupRow o <;> simp
    · rw [hes, h2]
      simp

/-- C3: the two-tier error policy. A failed record fetch exits with
    status 1 and writes no file; after a successful record fetch any
    completed run exits 0 with the file written (even with zero rows);
    and a failed work-detail fetch contributes no row, emits exactly a
    fetch attempt followed by a warning, and processing continues with
    the remaining groups. -/
theorem c3_two_tier :
    (∀ fw, mainRun none fw = some ⟨1, false, [], []⟩) ∧
      (∀ rec fw res, mainRun (some rec) fw = some res →
        res.exitCode = 0 ∧ res.fileWritten = true) ∧
      (∀ fw g rest pc rs es,
        processGroup fw g = some (GroupOutcome.fetchFailed pc) →
        runGroups fw (g :: rest) = some (rs, es) →
        ∃ es', runGroups fw rest = some (rs, es') ∧
          es = Event.fetchW pc :: Event.warnW pc :: es') := by
  refine ⟨fun fw => rfl, ?_, ?_⟩
  · intro rec fw res h
    unfold mainRun at h
    obtain ⟨asRaw, _, h⟩ := optBind_eq_some h
    obtain ⟨works, _, h⟩ := optBind_eq_some h
    obtain ⟨glRaw, _, h⟩ := optBind_eq_some h
    obtain ⟨gl, _, h⟩ := optBind_eq_some h
    obtain ⟨re, _, h⟩ := optBind_eq_some h
    injection h with h
    rw [← h]
    exact ⟨rfl, rfl⟩
  · intro fw g rest pc rs es h1 h2
    unfold runGroups at h2
    obtain ⟨o, ho, h2⟩ := optBind_eq_some h2
    rw [h1] at ho
    injection ho with ho
    subst ho
    obtain ⟨re, hre, h2⟩ := optBind_eq_some h2
    injection h2 with h2
    have hrs : rs = (groupRow (GroupOutcome.fetchFailed pc)).toList ++ re.1 :=
      (congrArg Prod.fst h2).symm
    have hes : es = groupEvents (GroupOutcome.fetchFailed pc) ++ re.2 :=
      (congrArg Prod.snd h2).symm
    refine ⟨re.2, ?_, ?_⟩
    · rw [hrs]
      exact hre
    · rw [hes]
      rfl

/-- Witness for C3 at a record with no groups and a single group whose
    work-detail fetch fails: exit 0, file written, no row, one warning. -/
theorem c3_two_tier_witness :
    ((⟨0, true, [], []⟩ : RunResult).exitCode = 0 ∧
        (⟨0, true, [], []⟩ : RunResult).fileWritten = true) ∧
      (∃ es', runGroups (fun _ => none) [] = some ([], es') ∧
        [Event.fetchW (Json.num 7), Event.warnW (Json.num 7)] =
          Event.fetchW (Json.num 7) :: Event.warnW (Json.num 7) :: es') := by
  refine ⟨?_, ?_⟩
  · exact c3_two_tier.2.1 (Json.obj []) (fun _ => none) ⟨0, true, [], []⟩ rfl
  · exact c3_two_tier.2.2 (fun _ => none)
      (Json.obj [("work-summary", Json.arr [Json.obj [("put-code", Json.num 7)]])])
      [] (Json.num 7) []
      [Event.fetchW (Json.num 7), Event.warnW (Json.num 7)] rfl rfl

theorem runGroups_counts {fw : Json → Option Json} {gl : List Json} {rs : List Row}
    {es : List Event} (h : runGroups fw gl = some (rs, es)) :
    es.countP isSleepEvt = rs.length ∧
      es.countP isFetchEvt = rs.length + es.countP isWarnEvt := by
  induction gl generalizing rs es with
  | nil =>
    unfold runGroups at h
    injection h with h
    have hrs : rs = [] := (congrArg Prod.fst h).symm
    have hes : es = [] := (congrArg Prod.snd h).symm
    subst hrs hes
    exact ⟨rfl, rfl⟩
  | cons g rest ih =>
    unfold runGroups at h
    obtain ⟨o, ho, h⟩ := optBind_eq_some h
    obtain ⟨re, hre, h⟩ := optBind_eq_some h
    injection h with h
    have hrs : rs = (groupRow o).toList ++ re.1 := (congrArg Prod.fst h).symm
    have hes : es = groupEvents o ++ re.2 := (congrArg Prod.snd h).symm
    obtain ⟨ih1, ih2⟩ := ih (show runGroups fw rest = some (re.1, re.2) from hre)
    subst hrs hes
    cases o <;>
      simp [List.countP_append, groupEvents, groupRow, List.countP_cons,
        isSleepEvt, isFetchEvt, isWarnEvt, ih1, ih2] <;>
      omega

/-- C8 counterexample: a group whose work-detail fetch fails produces a
    fetch attempt and a warning but no pacing sleep — the `continue` in
    the failure branch skips the delay, so the delay is not applied
    after every attempt. -/
theorem c8_counterexample :
    runGroups (fun _ => none)
        [Json.obj [("work-summary", Json.arr [Json.obj [("put-code", Json.num 7)]])]] =
      some ([], [Event.fetchW (Json.num 7), Event.warnW (Json.num 7)]) ∧
      [Event.fetchW (Json.num 7), Event.warnW (Json.num 7)].countP isFetchEvt = 1 ∧
      [Event.fetchW (Json.num 7), Event.warnW (Json.num 7)].countP isSleepEvt = 0 :=
  ⟨rfl, rfl, rfl⟩

/-- C8 amended: in every completed run the event trace decomposes into
    one block per group; a group contributes exactly one fetch attempt
    when it has a summary and put-code, the pacing sleep immediately
    follows a successful fetch (after the row is appended) and only
    then — a failed fetch emits its warning and skips the delay — and
    no put-code is ever fetched twice (no retry). Consequently the
    number of sleeps equals the number of rows, and the number of fetch
    attempts equals rows plus warnings. -/
theorem c8_amended (fw : Json → Option Json) (gl : List Json) (rs : List Row)
    (es : List Event) (h : runGroups fw gl = some (rs, es)) :
    ∃ os : List GroupOutcome,
      List.mapM (processGroup fw) gl = some os ∧
        es = (os.map groupEvents).flatten ∧
        rs = os.filterMap groupRow ∧
        (∀ o ∈ os, ∀ pc : Json,
          (o = GroupOutcome.fetchFailed pc →
            groupEvents o = [Event.fetchW pc, Event.warnW pc]) ∧
          (∀ r : Row, o = GroupOutcome.ok pc r →
            groupEvents o = [Event.fetchW pc, Event.sleepE])) ∧
        es.countP isSleepEvt = rs.length ∧
        es.countP isFetchEvt = rs.length + es.countP isWarnEvt := by
  obtain ⟨os, hos, h1, h2⟩ := runGroups_eq h
  obtain ⟨hc1, hc2⟩ := runGroups_counts h
  refine ⟨os, hos, h2, h1, ?_, hc1, hc2⟩
  intro o _ pc
  constructor
  · intro heq
    subst heq
    rfl
  · intro r heq
    subst heq
    rfl

/-- Witness for C8 amended at a single group whose fetch succeeds: one
    fetch attempt followed by the pacing sleep, one row. -/
theorem c8_amended_witness :
    ∃ os : List GroupOutcome,
      List.mapM (processGroup (fun _ => some (Json.obj [])))
          [Json.obj [("work-summary", Json.arr [Json.obj [("put-code", Json.num 7)]])]] =
        some os ∧
        [Event.fetchW (Json.num 7), Event.sleepE] = (os.map groupEvents).flatten ∧
        [(⟨"(no title)", "", "", Json.str "", "", Json.str ""⟩ : Row)] =
          os.filterMap groupRow ∧
        (∀ o ∈ os, ∀ pc : Json,
          (o = GroupOutcome.fetchFailed pc →
            groupEvents o = [Event.fetchW pc, Event.warnW pc]) ∧
          (∀ r : Row, o = GroupOutcome.ok pc r →
            groupEvents o = [Event.fetchW pc, Event.sleepE])) ∧
        [Event.fetchW (Json.num 7), Event.sleepE].countP isSleepEvt =
          [(⟨"(no title)", "", "", Json.str "", "", Json.str ""⟩ : Row)].length ∧
        [Event.fetchW (Json.num 7), Event.sleepE].countP isFetchEvt =
          [(⟨"(no title)", "", "", Json.str "", "", Json.str ""⟩ : Row)].length +
            [Event.fetchW (Json.num 7), Event.sleepE].countP isWarnEvt :=
  c8_amended (fun _ => some (Json.obj []))
    [Json.obj [("work-summary", Json.arr [Json.obj [("put-code", Json.num 7)]])]]
    [(⟨"(no title)", "", "", Json.str "", "", Json.str ""⟩ : Row)]
    [Event.fetchW (Json.num 7), Event.sleepE] rfl

theorem runGroups_rows_filterMap {fw : Json → Option Json} {gl : List Json}
    {rs : List Row} {es : List Event} (h : runGroups fw gl = some (rs, es)) :
    rs = gl.filterMap fun g => (processGroup fw g).bind groupRow := by
  induction gl generalizing rs es with
  | nil =>
    unfold runGroups at h
    injection h with h
    exact (congrArg Prod.fst h).symm
  | cons g rest ih =>
    unfold runGroups at h
    obtain ⟨o, ho, h⟩ := optBind_eq_some h
    obtain ⟨re, hre, h⟩ := optBind_eq_some h
    injection h with h
    have hrs : rs = (groupRow o).toList ++ re.1 := (congrArg Prod.fst h).symm
    rw [hrs, ih (show runGroups fw rest = some (re.1, re.2) from hre),
      List.filterMap_cons, ho]
    cases o <;> simp [groupRow]

/-- C9: every work group yields at most one row — a completed run's row
    list is the per-group filterMap of the loop body, so its length is
    bounded by the number of groups, a failed fetch yields no row — and
    only the first summary of a group is ever consulted: two groups
    agreeing on their first work summary are processed identically,
    whatever the remaining summaries are. -/
theorem c9_at_most_one_row :
    (∀ fw gl rs es, runGroups fw gl = some (rs, es) →
      rs = (gl.filterMap fun g => (processGroup fw g).bind groupRow) ∧
        rs.length ≤ gl.length) ∧
      (∀ pc, groupRow (GroupOutcome.fetchFailed pc) = none) ∧
      (∀ fw g g' s r1 r2,
        pyGet g "work-summary" Json.null = some (Json.arr (s :: r1)) →
        pyGet g' "work-summary" Json.null = some (Json.arr (s :: r2)) →
        processGroup fw g = processGroup fw g') := by
  refine ⟨?_, fun pc => rfl, ?_⟩
  · intro fw gl rs es h
    have hrs := runGroups_rows_filterMap h
    refine ⟨hrs, ?_⟩
    rw [hrs]
    exact List.length_filterMap_le _ _
  · intro fw g g' s r1 r2 hg hg'
    unfold processGroup
    rw [hg, hg']
    rfl

/-- Witness for C9 at a failing-fetch group (zero rows within one
    group) and two groups sharing their first summary. -/
theorem c9_at_most_one_row_witness :
    (([] : List Row) =
        ([Json.obj [("work-summary", Json.arr [Json.obj [("put-code", Json.num 7)]])]].filterMap
          fun g => (processGroup (fun _ => none) g).bind groupRow) ∧
      ([] : List Row).length ≤
        [Json.obj [("work-summary", Json.arr [Json.obj [("put-code", Json.num 7)]])]].length) ∧
      processGroup (fun _ => none)
          (Json.obj [("work-summary", Json.arr [Json.obj [("put-code", Json.num 7)]])]) =
        processGroup (fun _ => none)
          (Json.obj [("work-summary",
            Json.arr [Json.obj [("put-code", Json.num 7)], Json.obj []])]) := by
  refine ⟨?_, ?_⟩
  · exact c9_at_most_one_row.1 (fun _ => none)
      [Json.obj [("work-summary", Json.arr [Json.obj [("put-code", Json.num 7)]])]]
      [] [Event.fetchW (Json.num 7), Event.warnW (Json.num 7)] rfl
  · exact c9_at_most_one_row.2.2 (fun _ => none)
      (Json.obj [("work-summary", Json.arr [Json.obj [("put-code", Json.num 7)]])])
      (Json.obj [("work-summary", Json.arr [Json.obj [("put-code", Json.num 7)], Json.obj []])])
      (Json.obj [("put-code", Json.num 7)]) [] [Json.obj []] rfl rfl

/-! ## Totality of the extractors on well-shaped input (claims C1, C2) -/

theorem pyIter_isSome_of_iterable {v : Json} (h : iterableB v = true) :
    (pyIter v).isSome := by
  cases v <;> simp_all [iterableB, pyIter]

theorem bool_eq_false {b : Bool} (h : ¬ b = true) : b = false := by
  cases b
  · rfl
  · exact absurd rfl h

theorem optBind_isSome {α β : Type} {x : Option α} {f : α → Option β} {a : α}
    (hx : x = some a) (hf : (f a).isSome) : (x >>= f).isSome := by
  rw [hx]
  exact hf

theorem extract_title_total (w : Json) (h : titleShape w = true) :
    (extract_title w).isSome := by
  unfold extract_title
  by_cases hw : w.truthy = true
  · rw [if_neg (by simp [hw])]
    unfold titleShape at h
    simp only [hw, Bool.not_true, Bool.false_or, Bool.and_eq_true] at h
    obtain ⟨⟨h1, h2⟩, h3⟩ := h
    refine optBind_isSome (pyGet_of_isObj "title" (Json.obj []) h1) ?_
    refine optBind_isSome (pyGet_of_isObj "title" (Json.obj []) (isObjB_pyOr_obj h2)) ?_
    exact optBind_isSome (pyGet_of_isObj "value" Json.null h3) rfl
  · simp [bool_eq_false hw]

theorem contribLoop_total (l : List Json) (h : ∀ e ∈ l, contribElemOk e = true) :
    (contribLoop l).isSome := by
  induction l with
  | nil => simp [contribLoop]
  | cons c rest ih =>
    have hc := h c (List.mem_cons_self c rest)
    simp only [contribElemOk, Bool.and_eq_true] at hc
    obtain ⟨h1, h2⟩ := hc
    unfold contribLoop
    refine optBind_isSome (pyGet_of_isObj "credit-name" Json.null h1) ?_
    refine optBind_isSome (pyGet_of_isObj "value" Json.null (isObjB_pyOr_obj h2)) ?_
    obtain ⟨t, ht⟩ := Option.isSome_iff_exists.mp
      (ih fun e he => h e (List.mem_cons_of_mem c he))
    exact optBind_isSome ht rfl

theorem extract_contributors_total (w : Json) (h : contribsShape w = true) :
    (extract_contributors w).isSome := by
  unfold extract_contributors
  by_cases hw : w.truthy = true
  · rw [if_neg (by simp [hw])]
    unfold contribsShape at h
    simp only [hw, Bool.not_true, Bool.false_or, Bool.and_eq_true] at h
    obtain ⟨⟨⟨h1, h2⟩, h3⟩, h4⟩ := h
    refine optBind_isSome (pyGet_of_isObj "contributors" (Json.obj []) h1) ?_
    refine optBind_isSome (pyGet_of_isObj "contributor" (Json.arr []) (isObjB_pyOr_obj h2)) ?_
    obtain ⟨elems, he⟩ := Option.isSome_iff_exists.mp (pyIter_isSome_of_iterable h3)
    refine optBind_isSome he ?_
    rw [he] at h4
    simp only [Option.getD_some] at h4
    exact contribLoop_total elems (by simpa [List.all_eq_true] using h4)
  · simp [bool_eq_false hw]

theorem extract_journal_total (w : Json) (h : journalShape w = true) :
    (extract_journal w).isSome := by
  unfold extract_journal
  by_cases hw : w.truthy = true
  · rw [if_neg (by simp [hw])]
    unfold journalShape at h
    simp only [hw, Bool.not_true, Bool.false_or, Bool.and_eq_true] at h
    obtain ⟨h1, h2⟩ := h
    refine optBind_isSome (pyGet_of_isObj "journal-title" Json.null h1) ?_
    exact optBind_isSome (pyGet_of_isObj "value" Json.null (isObjB_pyOr_obj h2)) rfl
  · simp [bool_eq_false hw]

theorem summaryBranch_total (ws : Json) (h : summaryYearShape ws = true) :
    (extractYearSummaryBranch ws).isSome := by
  unfold extractYearSummaryBranch
  by_cases hw : ws.truthy = true
  · rw [if_pos hw]
    unfold summaryYearShape at h
    simp only [hw, Bool.not_true, Bool.false_or] at h
    cases ws with
    | obj kvs =>
      simp only [Bool.and_eq_true] at h
      obtain ⟨h1, h2⟩ := h
      refine optBind_isSome (pyGet_of_isObj "year" Json.null h1) ?_
      exact optBind_isSome (pyGet_of_isObj "value" Json.null (isObjB_pyOr_obj h2)) rfl
    | null => cases hw
    | bool b => rfl
    | num n => rfl
    | str s => rfl
    | arr l => rfl
  · rw [if_neg hw]
    rfl

theorem extract_year_total (w ws : Json) (h1 : detailYearShape w = true)
    (h2 : summaryYearShape ws = true) : (extract_year w ws).isSome := by
  unfold extract_year
  by_cases hw : w.truthy = true
  · rw [if_pos hw]
    unfold detailYearShape at h1
    simp only [hw, Bool.not_true, Bool.false_or, Bool.and_eq_true] at h1
    obtain ⟨⟨ha, hb⟩, hc⟩ := h1
    refine optBind_isSome (pyGet_of_isObj "publication-date" Json.null ha) ?_
    refine optBind_isSome (pyGet_of_isObj "year" Json.null (isObjB_pyOr_obj hb)) ?_
    refine optBind_isSome (pyGet_of_isObj "value" Json.null (isObjB_pyOr_obj hc)) ?_
    split
    · rfl
    · exact summaryBranch_total ws h2
  · rw [if_neg hw]
    exact summaryBranch_total ws h2

theorem isStrB_exists {v : Json} (h : isStrB v = true) : ∃ s, v = Json.str s := by
  cases v <;> simp_all [isStrB]

theorem optBind_some_eq {α β : Type} {x : Option α} {f : α → Option β} {a : α}
    (hx : x = some a) : (x >>= f) = f a := by
  rw [hx]
  rfl

theorem entryTypeE_eq {e : Json} {s : String}
    (hObj : isObjB e = true)
    (hs : pyOr (getD e "external-id-type" Json.null) (Json.str "") = Json.str s) :
    entryTypeE e = some (lowerStr s) := by
  unfold entryTypeE
  rw [optBind_some_eq (pyGet_of_isObj "external-id-type" Json.null hObj)]
  rw [hs]

theorem entryTypeTotal_eq {e : Json} {s : String}
    (hs : pyOr (getD e "external-id-type" Json.null) (Json.str "") = Json.str s) :
    entryTypeTotal e = lowerStr s := by
  unfold entryTypeTotal
  rw [hs]

theorem entryUrlValue_total {e : Json} (hObj : isObjB e = true)
    (hUrl : dictLike (getD e "external-id-url" Json.null) = true) :
    (entryUrlValue e).isSome := by
  unfold entryUrlValue
  refine optBind_isSome (pyGet_of_isObj "external-id-url" Json.null hObj) ?_
  exact optBind_isSome (pyGet_of_isObj "value" Json.null (isObjB_pyOr_obj hUrl)) rfl

theorem extDoiUrlLoop_total (l : List Json) (h : ∀ e ∈ l, extIdEntryOk e = true) :
    ∀ d u, (extDoiUrlLoop l d u).isSome := by
  induction l with
  | nil => intro d u; rfl
  | cons e rest ih =>
    intro d u
    have he := h e (List.mem_cons_self e rest)
    simp only [extIdEntryOk, Bool.and_eq_true] at he
    obtain ⟨⟨⟨hObj, hTyp⟩, hVal⟩, hUrl⟩ := he
    obtain ⟨s, hs⟩ := isStr_pyOr_str hTyp
    have hT := entryTypeE_eq hObj hs
    unfold extDoiUrlLoop
    simp only [hT]
    have hih := ih fun x hx => h x (List.mem_cons_of_mem e hx)
    have hUn : (if u.truthy = true then some u else entryUrlValue e).isSome := by
      by_cases hu : u.truthy = true
      · rw [if_pos hu]; rfl
      · rw [if_neg hu]
        exact entryUrlValue_total hObj hUrl
    obtain ⟨un, hun⟩ := Option.isSome_iff_exists.mp hUn
    by_cases hd : isDoiType (lowerStr s) = true
    · rw [entryTypeTotal_eq hs, hd] at hVal
      simp only [Bool.not_true, Bool.false_or] at hVal
      obtain ⟨sv, hsv⟩ := isStrB_exists hVal
      rw [if_pos hd, hsv, hun]
      exact hih (normalizeDoiStr sv) un
    · rw [if_neg hd, hun]
      exact hih d un

theorem extract_doi_and_url_total (w : Json) (h : doiUrlShape w = true) :
    (extract_doi_and_url w).isSome := by
  unfold extract_doi_and_url
  by_cases hw : w.truthy = true
  · rw [if_neg (by simp [hw])]
    unfold doiUrlShape at h
    simp only [hw, Bool.not_true, Bool.false_or, Bool.and_eq_true] at h
    obtain ⟨⟨⟨⟨h1, h2⟩, h3⟩, h4⟩, h5⟩ := h
    have hesS : (extIdList w).isSome := by
      unfold extIdList
      rw [if_neg (by simp [hw])]
      refine optBind_isSome (pyGet_of_isObj "external-ids" Json.null h1) ?_
      refine optBind_isSome (pyGet_of_isObj "external-id" (Json.arr []) (isObjB_pyOr_obj h2)) ?_
      exact pyIter_isSome_of_iterable h3
    obtain ⟨es, hes⟩ := Option.isSome_iff_exists.mp hesS
    refine optBind_isSome hes ?_
    have hall : ∀ e ∈ es, extIdEntryOk e = true := by
      unfold extIdList at hes
      rw [if_neg (by simp [hw])] at hes
      rw [optBind_some_eq (pyGet_of_isObj "external-ids" Json.null h1)] at hes
      rw [optBind_some_eq (pyGet_of_isObj "external-id" (Json.arr []) (isObjB_pyOr_obj h2))] at hes
      rw [hes] at h4
      simpa [List.all_eq_true] using h4
    obtain ⟨du, hdu⟩ := Option.isSome_iff_exists.mp (extDoiUrlLoop_total es hall "" (Json.str ""))
    refine optBind_isSome hdu ?_
    by_cases ht : du.2.truthy = true
    · rw [if_pos ht]
      rfl
    · rw [if_neg ht]
      have hdir : (directUrlValue w).isSome := by
        unfold directUrlValue
        refine optBind_isSome (pyGet_of_isObj "url" Json.null h1) ?_
        exact optBind_isSome (pyGet_of_isObj "value" Json.null (isObjB_pyOr_obj h5)) rfl
      obtain ⟨dv, hdv⟩ := Option.isSome_iff_exists.mp hdir
      exact optBind_isSome hdv rfl
  · simp [bool_eq_false hw]

/-- C1 counterexample: the extractors are not total on arbitrary
    malformed input. A detail whose `title` holds a plain string (a
    truthy non-dict where a dict is expected) makes `extract_title`
    raise AttributeError, and a detail whose `publication-date.year`
    holds a bare number makes `extract_year` raise — instead of
    returning the empty default the claim promises. -/
theorem c1_counterexample :
    extract_title (Json.obj [("title", Json.str "x")]) = none ∧
      extract_year (Json.obj [("publication-date", Json.obj [("year", Json.num 2020)])])
        Json.null = none :=
  ⟨rfl, rfl⟩

/-- C1 amended: each field extractor is total on inputs where every
    level it accesses is absent, falsy behind the code's `or`-defaults,
    or of the type the access requires (a dict under `.get`, a string
    under `.lower`/`.strip`, an iterable under `for`); a truthy value of
    the wrong type at an accessed level raises instead of degrading to
    the empty default. -/
theorem c1_totality_amended (w ws : Json) :
    (titleShape w = true → (extract_title w).isSome = true) ∧
      (contribsShape w = true → (extract_contributors w).isSome = true) ∧
      (journalShape w = true → (extract_journal w).isSome = true) ∧
      (detailYearShape w = true → summaryYearShape ws = true →
        (extract_year w ws).isSome = true) ∧
      (doiUrlShape w = true → (extract_doi_and_url w).isSome = true) :=
  ⟨extract_title_total w, extract_contributors_total w, extract_journal_total w,
    extract_year_total w ws, extract_doi_and_url_total w⟩

/-- Witness for C1 amended at the spec's end-to-end example detail and
    a summary with only a put-code. -/
theorem c1_totality_amended_witness :
    (extract_title (Json.obj
        [("title", Json.obj [("title", Json.obj [("value", Json.str "Study A")])]),
         ("contributors", Json.obj [("contributor", Json.arr
           [Json.obj [("credit-name", Json.obj [("value", Json.str "J. Doe")])]])]),
         ("journal-title", Json.obj [("value", Json.str "Journal X")]),
         ("publication-date", Json.obj [("year", Json.obj [("value", Json.str "2020")])]),
         ("external-ids", Json.obj [("external-id", Json.arr
           [Json.obj [("external-id-type", Json.str "doi"),
                      ("external-id-value", Json.str "10.1000/xyz")]])])])).isSome = true ∧
      (extract_year (Json.obj
        [("title", Json.obj [("title", Json.obj [("value", Json.str "Study A")])]),
         ("contributors", Json.obj [("contributor", Json.arr
           [Json.obj [("credit-name", Json.obj [("value", Json.str "J. Doe")])]])]),
         ("journal-title", Json.obj [("value", Json.str "Journal X")]),
         ("publication-date", Json.obj [("year", Json.obj [("value", Json.str "2020")])]),
         ("external-ids", Json.obj [("external-id", Json.arr
           [Json.obj [("external-id-type", Json.str "doi"),
                      ("external-id-value", Json.str "10.1000/xyz")]])])])
        (Json.obj [("put-code", Json.num 123)])).isSome = true := by
  refine ⟨?_, ?_⟩
  · exact (c1_totality_amended (Json.obj
        [("title", Json.obj [("title", Json.obj [("value", Json.str "Study A")])]),
         ("contributors", Json.obj [("contributor", Json.arr
           [Json.obj [("credit-name", Json.obj [("value", Json.str "J. Doe")])]])]),
         ("journal-title", Json.obj [("value", Json.str "Journal X")]),
         ("publication-date", Json.obj [("year", Json.obj [("value", Json.str "2020")])]),
         ("external-ids", Json.obj [("external-id", Json.arr
           [Json.obj [("external-id-type", Json.str "doi"),
                      ("external-id-value", Json.str "10.1000/xyz")]])])])
      (Json.obj [("put-code", Json.num 123)])).1 rfl
  · exact (c1_totality_amended (Json.obj
        [("title", Json.obj [("title", Json.obj [("value", Json.str "Study A")])]),
         ("contributors", Json.obj [("contributor", Json.arr
           [Json.obj [("credit-name", Json.obj [("value", Json.str "J. Doe")])]])]),
         ("journal-title", Json.obj [("value", Json.str "Journal X")]),
         ("publication-date", Json.obj [("year", Json.obj [("value", Json.str "2020")])]),
         ("external-ids", Json.obj [("external-id", Json.arr
           [Json.obj [("external-id-type", Json.str "doi"),
                      ("external-id-value", Json.str "10.1000/xyz")]])])])
      (Json.obj [("put-code", Json.num 123)])).2.2.2.1 rfl rfl

theorem dsg_loop_falsy : ∀ (keys : List String) (cur : Json),
    (dict_safe_get_loop cur keys (Json.str "")).truthy = false →
    dict_safe_get_loop cur keys (Json.str "") = Json.str "" := by
  intro keys
  induction keys with
  | nil =>
    intro cur h
    cases cur
    case obj => rfl
    all_goals exact pyOr_emptyStr_of_not_truthy h
  | cons k ks ih =>
    intro cur h
    cases cur
    case obj kvs => exact ih (getD (Json.obj kvs) k (Json.obj [])) h
    all_goals rfl

theorem dsg_falsy (ws : Json) (keys : List String)
    (h : (dict_safe_get ws keys (Json.str "")).truthy = false) :
    dict_safe_get ws keys (Json.str "") = Json.str "" :=
  dsg_loop_falsy keys _ h

theorem summaryTitleFallback_falsy (ws : Json)
    (h : (summaryTitleFallback ws).truthy = false) :
    summaryTitleFallback ws = Json.str "" := by
  unfold summaryTitleFallback at h ⊢
  by_cases ha : (dict_safe_get ws ["title", "title", "value"] (Json.str "")).truthy = true
  · rw [truthy_pyOr_left ha] at h
    rw [h] at ha
    cases ha
  · rw [truthy_pyOr_right (bool_eq_false ha)] at h ⊢
    exact dsg_falsy ws ["title"] h

theorem summaryYear_falsy (ws : Json) (h : (summaryYear ws).truthy = false) :
    summaryYear ws = Json.str "" := by
  unfold summaryYear at h ⊢
  by_cases hw : (!ws.truthy) = true
  · rw [if_pos hw]
  · rw [if_neg hw] at h ⊢
    exact pyOr_emptyStr_of_not_truthy h

theorem summaryBranch_eq (ws : Json) (h : summaryYearShape ws = true) :
    extractYearSummaryBranch ws = some (summaryYear ws) := by
  by_cases hw : ws.truthy = true
  · unfold extractYearSummaryBranch summaryYear
    rw [if_pos hw, if_neg (by simp [hw])]
    unfold summaryYearShape at h
    simp only [hw, Bool.not_true, Bool.false_or] at h
    cases ws with
    | obj kvs =>
      simp only [Bool.and_eq_true] at h
      obtain ⟨h1, h2⟩ := h
      simp only [optBind_some_eq (pyGet_of_isObj "year" Json.null h1),
        optBind_some_eq (pyGet_of_isObj "value" Json.null (isObjB_pyOr_obj h2))]
    | null => cases hw
    | bool b => rfl
    | num n => rfl
    | str s => rfl
    | arr l => rfl
  · unfold extractYearSummaryBranch summaryYear
    rw [if_neg hw, if_pos (by simp [bool_eq_false hw])]

/-- C2 counterexample: with the detail absent and a summary whose
    `publication-date.year` is a bare number, `extract_year` raises
    instead of returning the summary's value or the empty string. -/
theorem c2_counterexample :
    extract_year Json.null
      (Json.obj [("publication-date", Json.obj [("year", Json.num 2020)])]) = none :=
  rfl

/-- C2 amended: when the detail is absent or its field is empty, title
    and venue fall back to the summary's (sanitized) value and to the
    empty string when the summary lacks it, never raising; the year
    falls back the same way only when the summary's nested
    `publication-date.year` is absent, falsy, or a dict — a truthy
    non-dict there raises. -/
theorem c2_summary_fallback (d ws : Json) :
    (extract_title d = some (Json.str "") →
      assembleTitle d ws = some (sanitize_markdown (summaryTitleFallback ws)) ∧
        ((summaryTitleFallback ws).truthy = false → assembleTitle d ws = some "")) ∧
      (extract_journal d = some (Json.str "") →
        assembleJournal d ws =
            some (sanitize_markdown (dict_safe_get ws ["journal-title", "value"] (Json.str ""))) ∧
          ((dict_safe_get ws ["journal-title", "value"] (Json.str "")).truthy = false →
            assembleJournal d ws = some "")) ∧
      (extract_year d Json.null = some (Json.str "") → summaryYearShape ws = true →
        extract_year d ws = some (summaryYear ws) ∧
          ((summaryYear ws).truthy = false → extract_year d ws = some (Json.str ""))) := by
  refine ⟨?_, ?_, ?_⟩
  · intro h
    have hA : assembleTitle d ws = some (sanitize_markdown (summaryTitleFallback ws)) := by
      unfold assembleTitle
      rw [optBind_some_eq h]
      show some (sanitize_markdown (pyOr (Json.str "") (summaryTitleFallback ws))) = _
      rw [truthy_pyOr_right (show (Json.str "").truthy = false from rfl)]
    refine ⟨hA, fun hf => ?_⟩
    rw [hA, summaryTitleFallback_falsy ws hf]
    rfl
  · intro h
    have hA : assembleJournal d ws =
        some (sanitize_markdown (dict_safe_get ws ["journal-title", "value"] (Json.str ""))) := by
      unfold assembleJournal
      rw [optBind_some_eq h]
      show some (sanitize_markdown (pyOr (Json.str "")
        (dict_safe_get ws ["journal-title", "value"] (Json.str "")))) = _
      rw [truthy_pyOr_right (show (Json.str "").truthy = false from rfl)]
    refine ⟨hA, fun hf => ?_⟩
    rw [hA, dsg_falsy ws ["journal-title", "value"] hf]
    rfl
  · intro h hshape
    by_cases hd : d.truthy = true
    · unfold extract_year at h
      rw [if_pos hd] at h
      obtain ⟨pdRaw, hp, h⟩ := optBind_eq_some h
      obtain ⟨yRaw, hy, h⟩ := optBind_eq_some h
      obtain ⟨y, hv, h⟩ := optBind_eq_some h
      have hyt : y.truthy = false := by
        by_cases hyt : y.truthy = true
        · rw [if_pos hyt] at h
          injection h with h
          rw [h] at hyt
          cases hyt
        · exact bool_eq_false hyt
      have hE : extract_year d ws = extractYearSummaryBranch ws := by
        unfold extract_year
        rw [if_pos hd]
        simp only [optBind_some_eq hp, optBind_some_eq hy, optBind_some_eq hv]
        rw [if_neg (by simp [hyt])]
      rw [hE]
      refine ⟨summaryBranch_eq ws hshape, fun hf => ?_⟩
      rw [summaryBranch_eq ws hshape, summaryYear_falsy ws hf]
    · have hE : extract_year d ws = extractYearSummaryBranch ws := by
        unfold extract_year
        rw [if_neg hd]
      rw [hE]
      refine ⟨summaryBranch_eq ws hshape, fun hf => ?_⟩
      rw [summaryBranch_eq ws hshape, summaryYear_falsy ws hf]

/-- Witness for C2 amended: detail absent, summary carrying a plain
    string title, a journal-title value, and a well-shaped year. -/
theorem c2_summary_fallback_witness :
    assembleTitle Json.null (Json.obj [("title", Json.str "T")]) =
        some (sanitize_markdown (summaryTitleFallback (Json.obj [("title", Json.str "T")]))) ∧
      assembleJournal Json.null (Json.obj [("journal-title", Json.obj [("value", Json.str "V")])]) =
        some (sanitize_markdown (dict_safe_get
          (Json.obj [("journal-title", Json.obj [("value", Json.str "V")])])
          ["journal-title", "value"] (Json.str ""))) ∧
      extract_year Json.null
          (Json.obj [("publication-date", Json.obj [("year", Json.obj [("value", Json.str "2020")])])]) =
        some (summaryYear
          (Json.obj [("publication-date", Json.obj [("year", Json.obj [("value", Json.str "2020")])])])) := by
  refine ⟨?_, ?_, ?_⟩
  · exact ((c2_summary_fallback Json.null (Json.obj [("title", Json.str "T")])).1 rfl).1
  · exact ((c2_summary_fallback Json.null
      (Json.obj [("journal-title", Json.obj [("value", Json.str "V")])])).2.1 rfl).1
  · exact ((c2_summary_fallback Json.null
      (Json.obj [("publication-date", Json.obj [("year", Json.obj [("value", Json.str "2020")])])])).2.2
      rfl rfl).1
